import Mathlib

/-
  Verification of the Google Calendar adapter components
  (gcalender_components.py) against their specification.

  The embedding is shallow: the `execute` method of each component becomes a pure
  Lean function.  Remote API calls are modelled as oracle parameters of type
  `Except String _` (an exception message, or the decoded response), and each
  `execute` returns the value written to its output slot together with the
  trace of remote calls it issued.  Python dictionaries are modelled as
  association lists of string keys and JSON values (Python dicts preserve
  insertion order and have unique keys; assignment to an existing key replaces
  the value in place, assignment to a fresh key appends).
-/

set_option autoImplicit false

namespace GCal

/-- JSON values, as produced by `json.loads` and consumed by the components. -/
inductive Json where
  | null
  | bool (b : Bool)
  | num (n : Int)
  | str (s : String)
  | arr (elems : List Json)
  | obj (fields : List (String × Json))

/-- Lookup of a key in a Python dict (association list), first occurrence. -/
def jlookup : List (String × Json) → String → Option Json
  | [], _ => none
  | (k, v) :: rest, key => if k = key then some v else jlookup rest key

/-- `d[k] = v` on a Python dict: replace the value in place if the key exists,
append the pair otherwise. -/
def setKey : List (String × Json) → String → Json → List (String × Json)
  | [], k, v => [(k, v)]
  | (k0, v0) :: rest, k, v =>
      if k0 = k then (k, v) :: rest else (k0, v0) :: setKey rest k v

/-- Key lookup on a JSON value that is expected to be an object. -/
def jget (j : Json) (k : String) : Option Json :=
  match j with
  | .obj fields => jlookup fields k
  | _ => none

/-- The keys of a JSON object, in order; `[]` for non-objects. -/
def jkeys (j : Json) : List String :=
  match j with
  | .obj fields => fields.map Prod.fst
  | _ => []

/-- The uniform error object `{"error": <message>}`. -/
def errObj (e : String) : Json :=
  Json.obj [("error", Json.str e)]

/-- The ASCII single-quote character (code 39). -/
def squote : String :=
  String.singleton (Char.ofNat 39)

/-- The text of `str(KeyError(k))` in Python: the key wrapped in single
quotes. -/
def keyErrorMsg (k : String) : String :=
  squote ++ k ++ squote

/-- Python truthiness of an optional string input slot: `None` and the empty
string are falsy. -/
def truthyStr : Option String → Bool
  | none => false
  | some s => s ≠ ""

/-- Python truthiness of an optional list input slot: `None` and the empty
list are falsy. -/
def truthyList : Option (List String) → Bool
  | none => false
  | some l => l ≠ []

/-- `self.calendar_id.value if self.calendar_id.value else "primary"`. -/
def orPrimary (c : Option String) : String :=
  match c with
  | some s => if s = "" then "primary" else s
  | none => "primary"

/-- One remote Google Calendar API call, with the request data sent. -/
inductive RemoteCall where
  | list (calendarId timeMin timeMax : String) (singleEvents : Bool)
  | insert (calendarId : String) (body : List (String × Json))
  | get (calendarId eventId : String)
  | update (calendarId eventId : String) (body : List (String × Json))
  | delete (calendarId eventId : String)

/-- The `start`/`end` sub-object of a remote event: an optional timed value
and an optional all-day date value. -/
structure RemoteTime where
  dateTime : Option String
  date : Option String

/-- One attendee object of a remote event (the API schema guarantees the
`email` field). -/
structure Attendee where
  email : String

/-- A remote event as returned by the listing call, restricted to the fields
the component reads.  `none` models an absent key. -/
structure RemoteEvent where
  summary : Option String
  start : RemoteTime
  end_ : RemoteTime
  location : Option String
  attendees : Option (List Attendee)
  hangoutLink : Option String

/-- The `dateTime` value of a start/end sub-object, falling back to its
all-day `date` value (a `.get` with the other `.get` as default). -/
def timeOf (t : RemoteTime) : Option String :=
  match t.dateTime with
  | some s => some s
  | none => t.date

/-- An optional string as it lands in a result dict: `None` becomes JSON
null. -/
def optStr : Option String → Json
  | some s => Json.str s
  | none => Json.null

/-- The slash separator character. -/
def slash : Char := Char.ofNat 47

/-- Splitting a character list at every slash, keeping empty segments, as
the Python `split` method does with an explicit separator. -/
def splitSlashChars : List Char → List (List Char)
  | [] => [[]]
  | c :: cs =>
      match splitSlashChars cs with
      | [] => [[]]
      | seg :: segs => if c = slash then [] :: seg :: segs else (c :: seg) :: segs

/-- Python `s.split("/")`: the list of slash-separated segments of `s`,
empty segments included; the empty string yields one empty segment. -/
def splitOnSlash (s : String) : List String :=
  (splitSlashChars s.data).map (fun cs => String.mk cs)

namespace GetGoogleCalendarEvents

/-- `extract_meeting_id`: the last segment of the meet URL split on the
slash, or `None` for a falsy (empty) URL. -/
def extract_meeting_id (meet_url : String) : Option String :=
  if meet_url ≠ "" then some ((splitOnSlash meet_url).getLastD "") else none

/-- The `event_details` dict built for one remote event. -/
def event_details (e : RemoteEvent) : Json :=
  Json.obj [
    ("event_name", Json.str (e.summary.getD "No Title")),
    ("start_time", optStr (timeOf e.start)),
    ("end_time", optStr (timeOf e.end_)),
    ("location", Json.str (e.location.getD "")),
    ("participants", Json.arr ((e.attendees.getD []).map (fun p => Json.str p.email))),
    ("gmeet_link", Json.str (e.hangoutLink.getD "")),
    ("meeting_id", optStr (extract_meeting_id (e.hangoutLink.getD "")))]

/-- `GetGoogleCalendarEvents.execute`: the value of the `events` output slot
and the trace of remote calls.  `remote` is the outcome of the listing call
(its decoded `items`, or the exception it raised). -/
def execute (calendar_id date : String)
    (remote : Except String (List RemoteEvent)) : Json × List RemoteCall :=
  let call := RemoteCall.list calendar_id (date ++ "T00:00:00Z") (date ++ "T23:59:59Z") true
  match remote with
  | .error e => (errObj e, [call])
  | .ok events =>
      if events.isEmpty then
        (Json.obj [("message", Json.str "No events found for the specified day.")], [call])
      else
        (Json.obj [("events", Json.arr (events.map event_details))], [call])

end GetGoogleCalendarEvents

namespace CreateGoogleCalendarEvent

/-- The `event` request body built by `CreateGoogleCalendarEvent.execute`:
summary and UTC start/end always, `location` and `attendees` added only when
the corresponding input is truthy. -/
def eventBody (summary start_time end_time : String)
    (location : Option String) (participants : Option (List String)) :
    List (String × Json) :=
  let event : List (String × Json) := [
    ("summary", Json.str summary),
    ("start", Json.obj [("dateTime", Json.str start_time), ("timeZone", Json.str "UTC")]),
    ("end", Json.obj [("dateTime", Json.str end_time), ("timeZone", Json.str "UTC")])]
  let event := if truthyStr location
    then setKey event "location" (Json.str (location.getD "")) else event
  if truthyList participants
    then setKey event "attendees"
      (Json.arr ((participants.getD []).map (fun p => Json.obj [("email", Json.str p)])))
    else event

/-- `CreateGoogleCalendarEvent.execute`: the value of the `event_id` output
slot and the trace of remote calls.  `insertResult` is the outcome of the
insert call (the decoded created event, or the exception it raised); on
success the slot receives the `id` field of the created event, a missing `id` key raises
`KeyError` which the catch-all turns into an error object. -/
def execute (calendar_id summary start_time end_time : String)
    (location : Option String) (participants : Option (List String))
    (insertResult : Except String (List (String × Json))) :
    Json × List RemoteCall :=
  let body := eventBody summary start_time end_time location participants
  let call := RemoteCall.insert calendar_id body
  match insertResult with
  | .error e => (errObj e, [call])
  | .ok created =>
      match jlookup created "id" with
      | some v => (v, [call])
      | none => (errObj (keyErrorMsg "id"), [call])

end CreateGoogleCalendarEvent

namespace ModifyGoogleCalendarEvent

/-- `ModifyGoogleCalendarEvent.execute`: the value of the `modified_event_id`
output slot and the trace of remote calls.  `getResult` is the outcome of the
get call, `updateResult` the outcome of the update call when it is reached. -/
def execute (event_id new_summary new_description : String)
    (calendar_id : Option String)
    (getResult : Except String (List (String × Json)))
    (updateResult : Except String (List (String × Json))) :
    Json × List RemoteCall :=
  let cal_id := orPrimary calendar_id
  match getResult with
  | .error e => (errObj e, [RemoteCall.get cal_id event_id])
  | .ok event =>
      let body := setKey (setKey event "summary" (Json.str new_summary))
        "description" (Json.str new_description)
      let calls := [RemoteCall.get cal_id event_id, RemoteCall.update cal_id event_id body]
      match updateResult with
      | .error e => (errObj e, calls)
      | .ok updated =>
          match jlookup updated "id" with
          | some v => (v, calls)
          | none => (errObj (keyErrorMsg "id"), calls)

end ModifyGoogleCalendarEvent

namespace DeleteGoogleCalendarEvent

/-- `DeleteGoogleCalendarEvent.execute`: the value of the `deletion_status`
output slot and the trace of remote calls.  `deleteResult` is the outcome of
the delete call. -/
def execute (event_id : String) (calendar_id : Option String)
    (deleteResult : Except String Unit) : Json × List RemoteCall :=
  let cal_id := orPrimary calendar_id
  let call := RemoteCall.delete cal_id event_id
  match deleteResult with
  | .error e => (errObj e, [call])
  | .ok _ => (Json.obj [("status", Json.str "Event deleted successfully.")], [call])

end DeleteGoogleCalendarEvent

namespace ExtractEventFromJsonString

/-- The five output slots of `ExtractEventFromJsonString`; `none` is the
uninitialized default state of a slot. -/
structure Out where
  summary : Option Json
  start_time : Option Json
  end_time : Option Json
  location : Option Json
  participants : Option Json

/-- All five slots at their default state. -/
def Out.init : Out := ⟨none, none, none, none, none⟩

/-- `data[k]` on a decoded JSON value: `KeyError` when the key is missing,
`TypeError` when the value is not an object. -/
def getRequired (j : Json) (k : String) : Except String Json :=
  match j with
  | .obj fields =>
      match jlookup fields k with
      | some v => Except.ok v
      | none => Except.error (keyErrorMsg k)
  | _ => Except.error "string indices must be integers"

/-- `data.get(k, d)` on a decoded JSON object. -/
def getOrDefault (j : Json) (k : String) (d : Json) : Json :=
  match j with
  | .obj fields => (jlookup fields k).getD d
  | _ => d

/-- `ExtractEventFromJsonString.execute`: the input is the outcome of
`json.loads` on the input string (the decoded value, or the exception it
raised).  Assignments happen in source order; the first failure jumps to the
handler, which overwrites only the `summary` slot with the error object. -/
def execute (input : Except String Json) : Out :=
  match input with
  | .error e => { Out.init with summary := some (errObj e) }
  | .ok data =>
      match getRequired data "summary" with
      | .error e => { Out.init with summary := some (errObj e) }
      | .ok sv =>
          match getRequired data "start_time" with
          | .error e => { Out.init with summary := some (errObj e) }
          | .ok stv =>
              match getRequired data "end_time" with
              | .error e =>
                  { Out.init with summary := some (errObj e), start_time := some stv }
              | .ok env =>
                  { summary := some sv
                    start_time := some stv
                    end_time := some env
                    location := some (getOrDefault data "location" (Json.str ""))
                    participants := some (getOrDefault data "participants" (Json.arr [])) }

/-- Whether extraction succeeds on a given `json.loads` outcome: the string
parsed and all three required keys are present. -/
def extractOk (input : Except String Json) : Bool :=
  match input with
  | .error _ => false
  | .ok data =>
      (getRequired data "summary").toBool && (getRequired data "start_time").toBool &&
        (getRequired data "end_time").toBool

end ExtractEventFromJsonString

/-- The last segment of a string split on the slash separator, as the spec
phrases it. -/
def lastSegment (s : String) : String :=
  (splitOnSlash s).getLastD ""

/-- An `EventDraft` per the spec data model: required summary, start and end
times, optional location and participants. -/
structure EventDraft where
  summary : String
  startTime : String
  endTime : String
  location : Option String
  participants : Option (List String)

/-- Modelled from the spec: serializing an `EventDraft` to the JSON object
the extraction component consumes (the repository itself contains no
serializer).  Required fields are always present under the keys the extractor
reads; optional fields are present exactly when the draft carries them. -/
def draftToJson (d : EventDraft) : Json :=
  Json.obj ([("summary", Json.str d.summary),
      ("start_time", Json.str d.startTime),
      ("end_time", Json.str d.endTime)]
    ++ (match d.location with
        | some l => [("location", Json.str l)]
        | none => [])
    ++ (match d.participants with
        | some ps => [("participants", Json.arr (ps.map Json.str))]
        | none => []))

/-- The remote event of the concrete listing scenario: `summary` absent,
`hangoutLink` a Google Meet URL. -/
def sampleEvent : RemoteEvent :=
  { summary := none
    start := ⟨some "2024-05-01T10:00:00Z", none⟩
    end_ := ⟨some "2024-05-01T11:00:00Z", none⟩
    location := none
    attendees := none
    hangoutLink := some "https://meet.google.com/abc-defg-hij" }

/-- A successful remote listing containing only the sample event. -/
def sampleRemote : Except String (List RemoteEvent) :=
  Except.ok [sampleEvent]

/-- A decoded input for the extraction component that carries `summary` and
`start_time` but lacks the required `end_time` key. -/
def missingEndTimeInput : Except String Json :=
  Except.ok (Json.obj [("summary", Json.str "a"), ("start_time", Json.str "b")])

/- ------------------------------------------------------------------ -/
/- Helper lemmas                                                       -/
/- ------------------------------------------------------------------ -/

theorem jlookup_setKey_self (l : List (String × Json)) (k : String) (v : Json) :
    jlookup (setKey l k v) k = some v := by
  induction l with
  | nil => simp [setKey, jlookup]
  | cons p rest ih =>
      obtain ⟨k0, v0⟩ := p
      by_cases h : k0 = k
      · simp [setKey, h, jlookup]
      · simp [setKey, h, jlookup, ih]

theorem jlookup_setKey_ne (l : List (String × Json)) (k key : String) (v : Json)
    (h : key ≠ k) : jlookup (setKey l k v) key = jlookup l key := by
  induction l with
  | nil => simp [setKey, jlookup, Ne.symm h]
  | cons p rest ih =>
      obtain ⟨k0, v0⟩ := p
      by_cases h0 : k0 = k
      · subst h0
        simp [setKey, jlookup, Ne.symm h]
      · by_cases h1 : k0 = key
        · subst h1
          simp [setKey, h0, jlookup, h]
        · simp [setKey, h0, jlookup, h1, ih]

theorem jget_event_details_meeting_id (e : RemoteEvent) :
    jget (GetGoogleCalendarEvents.event_details e) "meeting_id" =
      some (optStr (GetGoogleCalendarEvents.extract_meeting_id (e.hangoutLink.getD ""))) := by
  simp [GetGoogleCalendarEvents.event_details, jget, jlookup]

theorem jget_event_details_event_name (e : RemoteEvent) :
    jget (GetGoogleCalendarEvents.event_details e) "event_name" =
      some (Json.str (e.summary.getD "No Title")) := by
  simp [GetGoogleCalendarEvents.event_details, jget, jlookup]

/- ------------------------------------------------------------------ -/
/- Claims                                                              -/
/- ------------------------------------------------------------------ -/

/-- Claim C8: when the listing call succeeds with zero items, the `events`
output is exactly the no-events message object. -/
theorem C8_empty_listing (calendar_id date : String) :
    (GetGoogleCalendarEvents.execute calendar_id date (Except.ok [])).1 =
      Json.obj [("message", Json.str "No events found for the specified day.")] := rfl

/-- Claim C10: the `events` output always is an object with exactly one of
the keys `events`, `message`, `error`: `events` (a list of records each with
exactly the seven fields) when the remote call succeeds with at least one
item, `message` when it succeeds with zero items, `error` when the call
raises. -/
theorem C10_output_shape (calendar_id date : String)
    (remote : Except String (List RemoteEvent)) :
    (∃ l, remote = Except.ok l ∧ l ≠ [] ∧
      (GetGoogleCalendarEvents.execute calendar_id date remote).1 =
        Json.obj [("events", Json.arr (l.map GetGoogleCalendarEvents.event_details))] ∧
      jkeys (GetGoogleCalendarEvents.execute calendar_id date remote).1 = ["events"] ∧
      ∀ e, e ∈ l → jkeys (GetGoogleCalendarEvents.event_details e) =
        ["event_name", "start_time", "end_time", "location", "participants",
          "gmeet_link", "meeting_id"]) ∨
    (remote = Except.ok [] ∧
      (GetGoogleCalendarEvents.execute calendar_id date remote).1 =
        Json.obj [("message", Json.str "No events found for the specified day.")] ∧
      jkeys (GetGoogleCalendarEvents.execute calendar_id date remote).1 = ["message"]) ∨
    (∃ msg, remote = Except.error msg ∧
      (GetGoogleCalendarEvents.execute calendar_id date remote).1 = errObj msg ∧
      jkeys (GetGoogleCalendarEvents.execute calendar_id date remote).1 = ["error"]) := by
  rcases remote with msg | l
  · exact Or.inr (Or.inr ⟨msg, rfl, rfl, rfl⟩)
  · cases l with
    | nil => exact Or.inr (Or.inl ⟨rfl, rfl, rfl⟩)
    | cons a t => exact Or.inl ⟨a :: t, rfl, by simp, rfl, rfl, fun e _ => rfl⟩

/-- Claim C10 witness: the output shape at a concrete successful listing
with one item. -/
theorem C10_output_shape_witness :
    (∃ l, sampleRemote = Except.ok l ∧ l ≠ [] ∧
      (GetGoogleCalendarEvents.execute "primary" "2024-05-01" sampleRemote).1 =
        Json.obj [("events", Json.arr (l.map GetGoogleCalendarEvents.event_details))] ∧
      jkeys (GetGoogleCalendarEvents.execute "primary" "2024-05-01" sampleRemote).1 =
        ["events"] ∧
      ∀ e, e ∈ l → jkeys (GetGoogleCalendarEvents.event_details e) =
        ["event_name", "start_time", "end_time", "location", "participants",
          "gmeet_link", "meeting_id"]) ∨
    (sampleRemote = Except.ok [] ∧
      (GetGoogleCalendarEvents.execute "primary" "2024-05-01" sampleRemote).1 =
        Json.obj [("message", Json.str "No events found for the specified day.")] ∧
      jkeys (GetGoogleCalendarEvents.execute "primary" "2024-05-01" sampleRemote).1 =
        ["message"]) ∨
    (∃ msg, sampleRemote = Except.error msg ∧
      (GetGoogleCalendarEvents.execute "primary" "2024-05-01" sampleRemote).1 =
        errObj msg ∧
      jkeys (GetGoogleCalendarEvents.execute "primary" "2024-05-01" sampleRemote).1 =
        ["error"]) :=
  C10_output_shape "primary" "2024-05-01" sampleRemote

/-- Claim C1: every record produced by the listing operation carries a
`meeting_id` equal to the last slash-separated segment of its meeting link
when the link is non-empty, and JSON null when the link is empty; it holds a
string exactly when the link is non-empty. -/
theorem C1_meeting_id (calendar_id date : String) (l : List RemoteEvent)
    (e : RemoteEvent) (h : e ∈ l) :
    ∃ recs, (GetGoogleCalendarEvents.execute calendar_id date (Except.ok l)).1 =
        Json.obj [("events", Json.arr recs)] ∧
      GetGoogleCalendarEvents.event_details e ∈ recs ∧
      (e.hangoutLink.getD "" ≠ "" →
        jget (GetGoogleCalendarEvents.event_details e) "meeting_id" =
          some (Json.str (lastSegment (e.hangoutLink.getD "")))) ∧
      (e.hangoutLink.getD "" = "" →
        jget (GetGoogleCalendarEvents.event_details e) "meeting_id" = some Json.null) ∧
      ((∃ s, jget (GetGoogleCalendarEvents.event_details e) "meeting_id" =
          some (Json.str s)) ↔ e.hangoutLink.getD "" ≠ "") := by
  have hmid := jget_event_details_meeting_id e
  have hcore :
      (e.hangoutLink.getD "" ≠ "" →
        jget (GetGoogleCalendarEvents.event_details e) "meeting_id" =
          some (Json.str (lastSegment (e.hangoutLink.getD "")))) ∧
      (e.hangoutLink.getD "" = "" →
        jget (GetGoogleCalendarEvents.event_details e) "meeting_id" = some Json.null) ∧
      ((∃ s, jget (GetGoogleCalendarEvents.event_details e) "meeting_id" =
          some (Json.str s)) ↔ e.hangoutLink.getD "" ≠ "") := by
    by_cases hlink : e.hangoutLink.getD "" = ""
    · rw [hmid]
      simp [GetGoogleCalendarEvents.extract_meeting_id, hlink, optStr]
    · rw [hmid]
      simp [GetGoogleCalendarEvents.extract_meeting_id, hlink, optStr, lastSegment]
  cases l with
  | nil => cases h
  | cons a t =>
      exact ⟨(a :: t).map GetGoogleCalendarEvents.event_details, rfl,
        List.mem_map_of_mem _ h, hcore⟩

/-- Claim C9: a listed event with no `summary` field is normalized with
`event_name` equal to "No Title"; in the concrete scenario (summary absent,
meet link present) the record has `event_name` "No Title" and `meeting_id`
"abc-defg-hij". -/
theorem C9_no_title (e : RemoteEvent) (h : e.summary = none) :
    jget (GetGoogleCalendarEvents.event_details e) "event_name" =
      some (Json.str "No Title") ∧
    (GetGoogleCalendarEvents.execute "primary" "2024-05-01" (Except.ok [sampleEvent])).1 =
      Json.obj [("events",
        Json.arr [GetGoogleCalendarEvents.event_details sampleEvent])] ∧
    jget (GetGoogleCalendarEvents.event_details sampleEvent) "event_name" =
      some (Json.str "No Title") ∧
    jget (GetGoogleCalendarEvents.event_details sampleEvent) "meeting_id" =
      some (Json.str "abc-defg-hij") := by
  refine ⟨?_, rfl, ?_, ?_⟩
  · rw [jget_event_details_event_name, h]
    rfl
  · rfl
  · rw [jget_event_details_meeting_id]
    rfl

/-- Claim C9 witness: the per-event part instantiated at the scenario
event. -/
theorem C9_no_title_witness :
    jget (GetGoogleCalendarEvents.event_details sampleEvent) "event_name" =
      some (Json.str "No Title") ∧
    (GetGoogleCalendarEvents.execute "primary" "2024-05-01" (Except.ok [sampleEvent])).1 =
      Json.obj [("events",
        Json.arr [GetGoogleCalendarEvents.event_details sampleEvent])] ∧
    jget (GetGoogleCalendarEvents.event_details sampleEvent) "event_name" =
      some (Json.str "No Title") ∧
    jget (GetGoogleCalendarEvents.event_details sampleEvent) "meeting_id" =
      some (Json.str "abc-defg-hij") :=
  C9_no_title sampleEvent rfl

/-- Claim C2 counterexample: on the input whose JSON carries `summary` and
`start_time` but lacks `end_time`, extraction fails, yet the `start_time`
output slot is not at its default state — it was assigned before the failure
point. -/
theorem C2_counterexample :
    ExtractEventFromJsonString.extractOk missingEndTimeInput = false ∧
    (ExtractEventFromJsonString.execute missingEndTimeInput).summary =
      some (errObj (keyErrorMsg "end_time")) ∧
    (ExtractEventFromJsonString.execute missingEndTimeInput).start_time =
      some (Json.str "b") ∧
    (ExtractEventFromJsonString.execute missingEndTimeInput).start_time ≠ none := by
  refine ⟨rfl, rfl, rfl, ?_⟩
  intro hcontra
  rw [show (ExtractEventFromJsonString.execute missingEndTimeInput).start_time =
    some (Json.str "b") from rfl] at hcontra
  exact Option.noConfusion hcontra

/-- Claim C2 (amended): on any failing input the `summary` slot is set to the
error object and the `end_time`, `location` and `participants` slots stay at
their default state; the `start_time` slot stays at its default state except
when the parse and the `summary` and `start_time` lookups all succeeded and
only the `end_time` lookup failed, in which case it retains the extracted
`start_time` value. -/
theorem C2_extract_error_slots (input : Except String Json)
    (h : ExtractEventFromJsonString.extractOk input = false) :
    ∃ msg, (ExtractEventFromJsonString.execute input).summary = some (errObj msg) ∧
      (ExtractEventFromJsonString.execute input).end_time = none ∧
      (ExtractEventFromJsonString.execute input).location = none ∧
      (ExtractEventFromJsonString.execute input).participants = none ∧
      ((ExtractEventFromJsonString.execute input).start_time = none ∨
        ∃ data v, input = Except.ok data ∧
          ExtractEventFromJsonString.getRequired data "start_time" = Except.ok v ∧
          (ExtractEventFromJsonString.execute input).start_time = some v ∧
          ∃ emsg, ExtractEventFromJsonString.getRequired data "end_time" =
            Except.error emsg) := by
  rcases input with e | data
  · exact ⟨e, rfl, rfl, rfl, rfl, Or.inl rfl⟩
  · rcases hs : ExtractEventFromJsonString.getRequired data "summary" with es | sv
    · refine ⟨es, ?_, ?_, ?_, ?_, Or.inl ?_⟩ <;>
        simp [ExtractEventFromJsonString.execute, ExtractEventFromJsonString.Out.init, hs]
    · rcases hst : ExtractEventFromJsonString.getRequired data "start_time" with est | stv
      · refine ⟨est, ?_, ?_, ?_, ?_, Or.inl ?_⟩ <;>
          simp [ExtractEventFromJsonString.execute, ExtractEventFromJsonString.Out.init,
            hs, hst]
      · rcases het : ExtractEventFromJsonString.getRequired data "end_time" with eet | etv
        · refine ⟨eet, ?_, ?_, ?_, ?_,
            Or.inr ⟨data, stv, rfl, hst, ?_, eet, het⟩⟩ <;>
            simp [ExtractEventFromJsonString.execute, ExtractEventFromJsonString.Out.init,
              hs, hst, het]
        · exfalso
          simp [ExtractEventFromJsonString.extractOk, hs, hst, het, Except.toBool] at h

/-- Claim C2 witness: the amended statement instantiated at the input that
lacks only `end_time`. -/
theorem C2_extract_error_slots_witness :
    ∃ msg, (ExtractEventFromJsonString.execute missingEndTimeInput).summary =
        some (errObj msg) ∧
      (ExtractEventFromJsonString.execute missingEndTimeInput).end_time = none ∧
      (ExtractEventFromJsonString.execute missingEndTimeInput).location = none ∧
      (ExtractEventFromJsonString.execute missingEndTimeInput).participants = none ∧
      ((ExtractEventFromJsonString.execute missingEndTimeInput).start_time = none ∨
        ∃ data v, missingEndTimeInput = Except.ok data ∧
          ExtractEventFromJsonString.getRequired data "start_time" = Except.ok v ∧
          (ExtractEventFromJsonString.execute missingEndTimeInput).start_time = some v ∧
          ∃ emsg, ExtractEventFromJsonString.getRequired data "end_time" =
            Except.error emsg) :=
  C2_extract_error_slots missingEndTimeInput rfl

/-- Claim C4: extracting from the serialization of an `EventDraft` returns
its summary, start time and end time, defaults `location` to the empty
string when the draft has none, and defaults `participants` to the empty
list when the draft has none. -/
theorem C4_round_trip (dr : EventDraft) :
    (ExtractEventFromJsonString.execute (Except.ok (draftToJson dr))).summary =
      some (Json.str dr.summary) ∧
    (ExtractEventFromJsonString.execute (Except.ok (draftToJson dr))).start_time =
      some (Json.str dr.startTime) ∧
    (ExtractEventFromJsonString.execute (Except.ok (draftToJson dr))).end_time =
      some (Json.str dr.endTime) ∧
    (dr.location = none →
      (ExtractEventFromJsonString.execute (Except.ok (draftToJson dr))).location =
        some (Json.str "")) ∧
    (dr.participants = none →
      (ExtractEventFromJsonString.execute (Except.ok (draftToJson dr))).participants =
        some (Json.arr [])) := by
  obtain ⟨s, st, en, loc, ps⟩ := dr
  cases loc <;> cases ps <;>
    simp [draftToJson, ExtractEventFromJsonString.execute,
      ExtractEventFromJsonString.getRequired, ExtractEventFromJsonString.getOrDefault,
      jlookup]

/-- Claim C4 witness: the round trip at a draft with no location and no
participants. -/
theorem C4_round_trip_witness :
    (ExtractEventFromJsonString.execute
      (Except.ok (draftToJson ⟨"s", "st", "en", none, none⟩))).location =
      some (Json.str "") ∧
    (ExtractEventFromJsonString.execute
      (Except.ok (draftToJson ⟨"s", "st", "en", none, none⟩))).participants =
      some (Json.arr []) := by
  obtain ⟨-, -, -, hl, hp⟩ := C4_round_trip ⟨"s", "st", "en", none, none⟩
  exact ⟨hl rfl, hp rfl⟩

/-- Claim C1 witness: the statement instantiated at a singleton listing of
the sample event, whose meeting link is non-empty. -/
theorem C1_meeting_id_witness :
    ∃ recs, (GetGoogleCalendarEvents.execute "primary" "2024-05-01"
        (Except.ok [sampleEvent])).1 = Json.obj [("events", Json.arr recs)] ∧
      GetGoogleCalendarEvents.event_details sampleEvent ∈ recs ∧
      (sampleEvent.hangoutLink.getD "" ≠ "" →
        jget (GetGoogleCalendarEvents.event_details sampleEvent) "meeting_id" =
          some (Json.str (lastSegment (sampleEvent.hangoutLink.getD "")))) ∧
      (sampleEvent.hangoutLink.getD "" = "" →
        jget (GetGoogleCalendarEvents.event_details sampleEvent) "meeting_id" =
          some Json.null) ∧
      ((∃ s, jget (GetGoogleCalendarEvents.event_details sampleEvent) "meeting_id" =
          some (Json.str s)) ↔ sampleEvent.hangoutLink.getD "" ≠ "") :=
  C1_meeting_id "primary" "2024-05-01" [sampleEvent] sampleEvent (by simp)

/-- The request body built by the create component, written as one list:
the three mandatory entries followed by the optional `location` and
`attendees` entries. -/
theorem eventBody_eq (su st en : String) (loc : Option String)
    (ps : Option (List String)) :
    CreateGoogleCalendarEvent.eventBody su st en loc ps =
      [("summary", Json.str su),
        ("start", Json.obj [("dateTime", Json.str st), ("timeZone", Json.str "UTC")]),
        ("end", Json.obj [("dateTime", Json.str en), ("timeZone", Json.str "UTC")])]
      ++ (if truthyStr loc then [("location", Json.str (loc.getD ""))] else [])
      ++ (if truthyList ps then
            [("attendees", Json.arr ((ps.getD []).map
              (fun p => Json.obj [("email", Json.str p)])))]
          else []) := by
  unfold CreateGoogleCalendarEvent.eventBody
  cases hl : truthyStr loc <;> cases hp : truthyList ps <;> simp [setKey]

/-- Claim C6: the create request body always carries `summary` and UTC
`start`/`end`; it carries `location` exactly when a non-empty location was
provided and `attendees` exactly when a non-empty participant list was
provided, with one email object per participant in order; the concrete
no-location, no-participant scenario omits both keys; the body is what the
insert call sends. -/
theorem C6_create_payload (calendar_id su st en : String) (loc : Option String)
    (ps : Option (List String)) (insertResult : Except String (List (String × Json))) :
    (CreateGoogleCalendarEvent.execute calendar_id su st en loc ps insertResult).2 =
      [RemoteCall.insert calendar_id (CreateGoogleCalendarEvent.eventBody su st en loc ps)] ∧
    (CreateGoogleCalendarEvent.eventBody su st en loc ps).map Prod.fst =
      ["summary", "start", "end"]
        ++ (if truthyStr loc then ["location"] else [])
        ++ (if truthyList ps then ["attendees"] else []) ∧
    jlookup (CreateGoogleCalendarEvent.eventBody su st en loc ps) "summary" =
      some (Json.str su) ∧
    jlookup (CreateGoogleCalendarEvent.eventBody su st en loc ps) "start" =
      some (Json.obj [("dateTime", Json.str st), ("timeZone", Json.str "UTC")]) ∧
    jlookup (CreateGoogleCalendarEvent.eventBody su st en loc ps) "end" =
      some (Json.obj [("dateTime", Json.str en), ("timeZone", Json.str "UTC")]) ∧
    (∀ s, loc = some s → s ≠ "" →
      jlookup (CreateGoogleCalendarEvent.eventBody su st en loc ps) "location" =
        some (Json.str s)) ∧
    (∀ l, ps = some l → l ≠ [] →
      jlookup (CreateGoogleCalendarEvent.eventBody su st en loc ps) "attendees" =
        some (Json.arr (l.map (fun p => Json.obj [("email", Json.str p)])))) ∧
    CreateGoogleCalendarEvent.eventBody "Standup" "2024-05-01T09:00:00"
        "2024-05-01T09:15:00" none none =
      [("summary", Json.str "Standup"),
        ("start", Json.obj [("dateTime", Json.str "2024-05-01T09:00:00"),
          ("timeZone", Json.str "UTC")]),
        ("end", Json.obj [("dateTime", Json.str "2024-05-01T09:15:00"),
          ("timeZone", Json.str "UTC")])] := by
  refine ⟨?_, ?_, ?_, ?_, ?_, ?_, ?_, rfl⟩
  · rcases insertResult with e | c
    · rfl
    · cases hid : jlookup c "id" <;> simp [CreateGoogleCalendarEvent.execute, hid]
  · rw [eventBody_eq]
    cases hl : truthyStr loc <;> cases hp : truthyList ps <;> simp
  · rw [eventBody_eq]
    cases hl : truthyStr loc <;> cases hp : truthyList ps <;> simp [jlookup]
  · rw [eventBody_eq]
    cases hl : truthyStr loc <;> cases hp : truthyList ps <;> simp [jlookup]
  · rw [eventBody_eq]
    cases hl : truthyStr loc <;> cases hp : truthyList ps <;> simp [jlookup]
  · intro s hs hne
    subst hs
    rw [eventBody_eq]
    cases hp : truthyList ps <;> simp [truthyStr, hne, jlookup]
  · intro l hl hne
    subst hl
    rw [eventBody_eq]
    cases hloc : truthyStr loc <;> simp [truthyList, hne, jlookup]

/-- Claim C6 witness: location and attendee entries at a concrete create
invocation that provides both. -/
theorem C6_create_payload_witness :
    jlookup (CreateGoogleCalendarEvent.eventBody "S" "t1" "t2" (some "HQ")
      (some ["a@b"])) "location" = some (Json.str "HQ") ∧
    jlookup (CreateGoogleCalendarEvent.eventBody "S" "t1" "t2" (some "HQ")
      (some ["a@b"])) "attendees" =
      some (Json.arr (["a@b"].map (fun p => Json.obj [("email", Json.str p)]))) := by
  obtain ⟨-, -, -, -, -, hloc, hatt, -⟩ :=
    C6_create_payload "primary" "S" "t1" "t2" (some "HQ") (some ["a@b"]) (Except.ok [])
  exact ⟨hloc "HQ" rfl (by decide), hatt ["a@b"] rfl (by simp)⟩

/-- Claim C3: on a successful fetch, the body sent in the update call is the
fetched event with `summary` and `description` overwritten to the provided
values and every other key bound to the same value as in the fetched
event. -/
theorem C3_modify_body (event_id new_summary new_description : String)
    (calendar_id : Option String) (fetched : List (String × Json))
    (updateResult : Except String (List (String × Json))) :
    ∃ body,
      (ModifyGoogleCalendarEvent.execute event_id new_summary new_description
          calendar_id (Except.ok fetched) updateResult).2 =
        [RemoteCall.get (orPrimary calendar_id) event_id,
          RemoteCall.update (orPrimary calendar_id) event_id body] ∧
      jlookup body "summary" = some (Json.str new_summary) ∧
      jlookup body "description" = some (Json.str new_description) ∧
      ∀ k, k ≠ "summary" → k ≠ "description" →
        jlookup body k = jlookup fetched k := by
  refine ⟨setKey (setKey fetched "summary" (Json.str new_summary)) "description"
    (Json.str new_description), ?_, ?_, ?_, ?_⟩
  · rcases updateResult with e | u
    · rfl
    · cases hid : jlookup u "id" <;> simp [ModifyGoogleCalendarEvent.execute, hid]
  · rw [jlookup_setKey_ne _ _ _ _ (by decide), jlookup_setKey_self]
  · rw [jlookup_setKey_self]
  · intro k hks hkd
    rw [jlookup_setKey_ne _ _ _ _ hkd, jlookup_setKey_ne _ _ _ _ hks]

/-- Claim C3 witness: a concrete modify invocation preserving the unrelated
`location` key. -/
theorem C3_modify_body_witness :
    ∃ body,
      (ModifyGoogleCalendarEvent.execute "e1" "NewS" "NewD" none
          (Except.ok [("id", Json.str "e1"), ("location", Json.str "HQ")])
          (Except.ok [("id", Json.str "e1")])).2 =
        [RemoteCall.get "primary" "e1", RemoteCall.update "primary" "e1" body] ∧
      jlookup body "summary" = some (Json.str "NewS") ∧
      jlookup body "description" = some (Json.str "NewD") ∧
      jlookup body "location" = some (Json.str "HQ") := by
  obtain ⟨body, htrace, hsum, hdesc, hrest⟩ :=
    C3_modify_body "e1" "NewS" "NewD" none
      [("id", Json.str "e1"), ("location", Json.str "HQ")]
      (Except.ok [("id", Json.str "e1")])
  refine ⟨body, htrace, hsum, hdesc, ?_⟩
  rw [hrest "location" (by decide) (by decide)]
  rfl

/-- Claim C7: the delete operation returns the success status object when
the remote call succeeds, and the error object carrying the message when the
remote call raises; either way it returns normally. -/
theorem C7_delete_result (event_id : String) (calendar_id : Option String) :
    DeleteGoogleCalendarEvent.execute event_id calendar_id (Except.ok ()) =
      (Json.obj [("status", Json.str "Event deleted successfully.")],
        [RemoteCall.delete (orPrimary calendar_id) event_id]) ∧
    ∀ msg, DeleteGoogleCalendarEvent.execute event_id calendar_id (Except.error msg) =
      (errObj msg, [RemoteCall.delete (orPrimary calendar_id) event_id]) :=
  ⟨rfl, fun _ => rfl⟩

/-- Claim C5 counterexample: a modify invocation whose fetch succeeds issues
two remote calls (the get and the update), not exactly one. -/
theorem C5_counterexample :
    (ModifyGoogleCalendarEvent.execute "ev1" "s" "d" none (Except.ok [])
      (Except.ok [])).2.length = 2 ∧
    ¬ (ModifyGoogleCalendarEvent.execute "ev1" "s" "d" none (Except.ok [])
      (Except.ok [])).2.length = 1 := by
  exact ⟨rfl, by decide⟩

/-- Claim C5 (amended): every exception of a remote call is caught and
expressed as the error object in the normal output slot, and no remote call
is retried: list, create and delete issue exactly one remote call per
invocation, while modify issues its get call once and, exactly when the get
succeeds, its update call once (two calls in total). -/
theorem C5_error_policy (calendar_id date su st en event_id new_summary
      new_description : String)
    (loc : Option String) (ps : Option (List String)) (cal : Option String)
    (listResult : Except String (List RemoteEvent))
    (insertResult getResult updateResult : Except String (List (String × Json)))
    (deleteResult : Except String Unit) :
    ((GetGoogleCalendarEvents.execute calendar_id date listResult).2.length = 1 ∧
      ∀ msg, listResult = Except.error msg →
        (GetGoogleCalendarEvents.execute calendar_id date listResult).1 = errObj msg) ∧
    ((CreateGoogleCalendarEvent.execute calendar_id su st en loc ps
        insertResult).2.length = 1 ∧
      ∀ msg, insertResult = Except.error msg →
        (CreateGoogleCalendarEvent.execute calendar_id su st en loc ps
          insertResult).1 = errObj msg) ∧
    ((DeleteGoogleCalendarEvent.execute event_id cal deleteResult).2.length = 1 ∧
      ∀ msg, deleteResult = Except.error msg →
        (DeleteGoogleCalendarEvent.execute event_id cal deleteResult).1 = errObj msg) ∧
    ((ModifyGoogleCalendarEvent.execute event_id new_summary new_description cal
        getResult updateResult).2.length = if getResult.toBool then 2 else 1) ∧
    (∀ msg, getResult = Except.error msg →
      ModifyGoogleCalendarEvent.execute event_id new_summary new_description cal
        getResult updateResult =
        (errObj msg, [RemoteCall.get (orPrimary cal) event_id])) ∧
    (∀ ev msg, getResult = Except.ok ev → updateResult = Except.error msg →
      (ModifyGoogleCalendarEvent.execute event_id new_summary new_description cal
        getResult updateResult).1 = errObj msg) := by
  refine ⟨⟨?_, ?_⟩, ⟨?_, ?_⟩, ⟨?_, ?_⟩, ?_, ?_, ?_⟩
  · rcases listResult with e | l
    · rfl
    · cases l <;> rfl
  · rintro msg rfl
    rfl
  · rcases insertResult with e | c
    · rfl
    · cases hid : jlookup c "id" <;> simp [CreateGoogleCalendarEvent.execute, hid]
  · rintro msg rfl
    rfl
  · rcases deleteResult with e | u
    · rfl
    · rfl
  · rintro msg rfl
    rfl
  · rcases getResult with e | ev
    · rfl
    · rcases updateResult with e | u
      · rfl
      · cases hid : jlookup u "id" <;> simp [ModifyGoogleCalendarEvent.execute, hid,
          Except.toBool]
  · rintro msg rfl
    rfl
  · rintro ev msg rfl rfl
    rfl

/-- Claim C5 witness: the modify error path at a concrete failing get
call. -/
theorem C5_error_policy_witness :
    ModifyGoogleCalendarEvent.execute "e1" "s" "d" none (Except.error "boom")
      (Except.ok []) = (errObj "boom", [RemoteCall.get "primary" "e1"]) := by
  obtain ⟨-, -, -, -, hget, -⟩ :=
    C5_error_policy "primary" "2024-05-01" "su" "t1" "t2" "e1" "s" "d"
      none none none (Except.ok []) (Except.ok []) (Except.error "boom")
      (Except.ok []) (Except.ok ())
  exact hget "boom" rfl

end GCal
